import Mathlib

/-!
Shallow embedding of the e-signature field placement and assignment engine
(`src/app/app.js`) together with proofs of the specification claims.

The source is a single-page application.  Its core state lives in the `App`
component (`placedFields`, `fillers`, `nextId`, lines 183-186), and the core
logic is:

* the drop handler of `PdfPage` (lines 126-162), which converts drag/drop
  pixel geometry into page-fractional coordinates,
* the store operations `addFiller`, `removeFiller`, `handleDrop`,
  `handleMoveField`, `handleAssignField` (lines 238-270),
* the send-readiness check and payload construction in `handleSend`
  (lines 272-297) and the Send button's disabled condition (line 351).

Pixel and fractional coordinates are embedded as rationals.  Where
division by zero matters (a surface box of zero width or height) the drop
handler is additionally embedded over `JSNum`, a model of JavaScript's
number special values (signless zero, infinities and NaN over exact
rational arithmetic), so that the degenerate-box behaviour of the code can
be evaluated faithfully.
-/

namespace Esig

/-! ### Data model (lines 183-186, 240, 255) -/

/-- A placed field, as created at line 255 of the source:
`{ id: nextId, pageNum, left, top, type, assignedTo: null }`. -/
structure Field where
  id : Nat
  pageNum : Nat
  left : Rat
  top : Rat
  type : String
  assignedTo : Option String
deriving DecidableEq

/-- A recipient ("filler"), line 240: `{ id, email }`. -/
structure Filler where
  id : String
  email : String
deriving DecidableEq

/-- The mutable state of the `App` component (lines 183-186); the PDF
handle and UI-only state are not part of the core model. -/
structure AppState where
  placedFields : List Field
  fillers : List Filler
  nextId : Nat
deriving DecidableEq

/-- Initial state of a document session (lines 183-186, also reset at
lines 229-232 when a new document is loaded). -/
def initialState : AppState := { placedFields := [], fillers := [], nextId := 0 }

/-! ### Surface geometry -/

/-- The bounding box returned by `getBoundingClientRect()` on the drop
target (line 130). -/
structure SurfaceBox where
  left : Rat
  top : Rat
  width : Rat
  height : Rat
deriving DecidableEq

/-- `Math.max(0, Math.min(100, v))`, the clamping applied at
lines 145-146 and 156-157. -/
def clamp01 (v : Rat) : Rat := max 0 (min 100 v)

/-- The new-field branch of the drop handler (lines 156-157): place the
pointer's offset relative to the surface box, as a percentage, clamped. -/
def placeNew (offset : Rat × Rat) (box : SurfaceBox) : Rat × Rat :=
  (clamp01 ((offset.1 - box.left) / box.width * 100),
   clamp01 ((offset.2 - box.top) / box.height * 100))

/-- The move branch of the drop handler (lines 138-146): add the pixel
delta since drag start, as a percentage of the box, to the current
fractional position, clamped. -/
def moveExisting (cur : Rat × Rat) (delta : Rat × Rat) (box : SurfaceBox) : Rat × Rat :=
  (clamp01 (cur.1 + delta.1 / box.width * 100),
   clamp01 (cur.2 + delta.2 / box.height * 100))

/-! ### JavaScript number semantics

The drop handler performs raw IEEE arithmetic; when the surface box has
zero width or height the divisions at lines 138-139 and 156-157 produce
infinities or NaN.  `JSNum` models a JavaScript number as an exact
rational, positive/negative infinity, or NaN (zero is modelled unsigned;
for the inputs arising in the handler, `getBoundingClientRect` values and
pointer coordinates, negative zero never arises). -/

inductive JSNum where
  | fin (q : Rat)
  | posInf
  | negInf
  | nan
deriving DecidableEq

/-- JavaScript division. `a / 0` is `±Infinity` by the sign of `a`, and
`0 / 0` is `NaN`. -/
def jsDiv : JSNum → JSNum → JSNum
  | .nan, _ => .nan
  | _, .nan => .nan
  | .fin a, .fin b =>
      if b = 0 then (if 0 < a then .posInf else if a < 0 then .negInf else .nan)
      else .fin (a / b)
  | .posInf, .fin b => if 0 ≤ b then .posInf else .negInf
  | .negInf, .fin b => if 0 ≤ b then .negInf else .posInf
  | .fin _, .posInf => .fin 0
  | .fin _, .negInf => .fin 0
  | .posInf, .posInf => .nan
  | .posInf, .negInf => .nan
  | .negInf, .posInf => .nan
  | .negInf, .negInf => .nan

/-- JavaScript multiplication; `±Infinity * 0` is `NaN`. -/
def jsMul : JSNum → JSNum → JSNum
  | .nan, _ => .nan
  | _, .nan => .nan
  | .fin a, .fin b => .fin (a * b)
  | .posInf, .fin b => if 0 < b then .posInf else if b < 0 then .negInf else .nan
  | .fin a, .posInf => if 0 < a then .posInf else if a < 0 then .negInf else .nan
  | .negInf, .fin b => if 0 < b then .negInf else if b < 0 then .posInf else .nan
  | .fin a, .negInf => if 0 < a then .negInf else if a < 0 then .posInf else .nan
  | .posInf, .posInf => .posInf
  | .posInf, .negInf => .negInf
  | .negInf, .posInf => .negInf
  | .negInf, .negInf => .posInf

/-- JavaScript addition; `Infinity + (-Infinity)` is `NaN`. -/
def jsAdd : JSNum → JSNum → JSNum
  | .nan, _ => .nan
  | _, .nan => .nan
  | .fin a, .fin b => .fin (a + b)
  | .posInf, .negInf => .nan
  | .negInf, .posInf => .nan
  | .posInf, .fin _ => .posInf
  | .fin _, .posInf => .posInf
  | .posInf, .posInf => .posInf
  | .negInf, .fin _ => .negInf
  | .fin _, .negInf => .negInf
  | .negInf, .negInf => .negInf

/-- `Math.min`: NaN-propagating minimum. -/
def jsMin : JSNum → JSNum → JSNum
  | .nan, _ => .nan
  | _, .nan => .nan
  | .negInf, _ => .negInf
  | _, .negInf => .negInf
  | .posInf, y => y
  | x, .posInf => x
  | .fin a, .fin b => .fin (if a ≤ b then a else b)

/-- `Math.max`: NaN-propagating maximum. -/
def jsMax : JSNum → JSNum → JSNum
  | .nan, _ => .nan
  | _, .nan => .nan
  | .posInf, _ => .posInf
  | _, .posInf => .posInf
  | .negInf, y => y
  | x, .negInf => x
  | .fin a, .fin b => .fin (if a ≤ b then b else a)

/-- The drag item delivered to the drop handler: either a palette item
`{ type }` (line 14) or a placed field `{ id, left, top, type }`
(line 38); the handler distinguishes them by `item.id !== undefined`
(line 132). -/
inductive DragItem where
  | paletteItem (type : String)
  | placedItem (id : Nat) (left top : Rat) (type : String)
deriving DecidableEq

/-- The store mutation requested by the drop handler: `onMoveField`
(line 148) or `onDrop` (line 159).  Coordinates are JavaScript numbers,
exactly as computed by the handler. -/
inductive DropAction where
  | moveField (id : Nat) (left top : JSNum)
  | newField (type : String) (page : Nat) (left top : JSNum)
deriving DecidableEq

/-- The drop handler (lines 128-161), with JavaScript number semantics.
`delta` is `monitor.getDifferenceFromInitialOffset()` and `offset` is
`monitor.getClientOffset()`, both of which may be null.  `box` is the
drop target's bounding rect; the handler's `!dropRef.current` early
return is presentation-level and `box` stands for the rect of the
existing drop target.  Returns `none` when the handler returns without
mutating anything. -/
def dropHandler (item : DragItem) (delta offset : Option (Rat × Rat))
    (box : SurfaceBox) (pageNum : Nat) : Option DropAction :=
  match item with
  | .placedItem id left top _ =>
      match delta with
      | none => none
      | some d =>
          let deltaXpercent := jsMul (jsDiv (.fin d.1) (.fin box.width)) (.fin 100)
          let deltaYpercent := jsMul (jsDiv (.fin d.2) (.fin box.height)) (.fin 100)
          let newLeft := jsMax (.fin 0) (jsMin (.fin 100) (jsAdd (.fin left) deltaXpercent))
          let newTop := jsMax (.fin 0) (jsMin (.fin 100) (jsAdd (.fin top) deltaYpercent))
          some (.moveField id newLeft newTop)
  | .paletteItem ty =>
      match offset with
      | none => none
      | some o =>
          let left := jsMax (.fin 0) (jsMin (.fin 100)
            (jsMul (jsDiv (.fin (o.1 - box.left)) (.fin box.width)) (.fin 100)))
          let top := jsMax (.fin 0) (jsMin (.fin 100)
            (jsMul (jsDiv (.fin (o.2 - box.top)) (.fin box.height)) (.fin 100)))
          some (.newField ty pageNum left top)

/-! ### The email shape check (line 239)

`/\S+@\S+\.\S+/.test(email)`: an unanchored search for one-or-more
non-whitespace characters, `@`, one-or-more non-whitespace, `.`,
one-or-more non-whitespace.  The matcher below is a direct backtracking
implementation of that regular expression over the character list. -/

/-- JavaScript's `\s` character class (whitespace and line terminators). -/
def isJsSpace (c : Char) : Bool :=
  let n := c.toNat
  n = 32 || n = 9 || n = 10 || n = 11 || n = 12 || n = 13 ||
  n = 160 || n = 0x1680 || (0x2000 ≤ n && n ≤ 0x200A) ||
  n = 0x2028 || n = 0x2029 || n = 0x202F || n = 0x205F ||
  n = 0x3000 || n = 0xFEFF

/-- JavaScript's `\S`. -/
def nonSpaceChar (c : Char) : Bool := !(isJsSpace c)

/-- Final `\S+`: at least one non-space character at the current position. -/
def headNonSpace : List Char → Bool
  | [] => false
  | c :: _ => nonSpaceChar c

/-- Anchored match of `\S+\.\S+`. -/
def matchDotTail : List Char → Bool
  | [] => false
  | c :: rest =>
      nonSpaceChar c &&
        ((match rest with
          | '.' :: r => headNonSpace r
          | _ => false) || matchDotTail rest)

/-- Anchored match of `@\S+\.\S+`. -/
def matchAtTail : List Char → Bool
  | '@' :: r => matchDotTail r
  | _ => false

/-- Anchored match of `\S+@\S+\.\S+`. -/
def matchEmailHere : List Char → Bool
  | [] => false
  | c :: rest => nonSpaceChar c && (matchAtTail rest || matchEmailHere rest)

/-- Unanchored search, as `RegExp.prototype.test` performs. -/
def emailSearch : List Char → Bool
  | [] => false
  | c :: rest => matchEmailHere (c :: rest) || emailSearch rest

/-- `/\S+@\S+\.\S+/.test(email)` (line 239). -/
def emailShapeTest (s : String) : Bool := emailSearch s.data

/-! ### Store operations (lines 238-270) -/

/-- The recipient id generated at line 240: `filler_` followed by
`Date.now()` rendered in decimal.  The millisecond timestamp is the
`now` argument threaded through `addFiller`. -/
def fillerId (now : Nat) : String := "filler_" ++ Nat.repr now

/-- `addFiller` (lines 238-244).  The input-field reset
(`setNewFillerEmail`) is presentation-only and not modelled; `now` is
the value of `Date.now()` at the call. -/
def addFiller (s : AppState) (email : String) (now : Nat) : AppState :=
  if !(email == "") && emailShapeTest email
      && !(s.fillers.any fun f => f.email == email) then
    { s with fillers := s.fillers ++ [{ id := fillerId now, email := email }] }
  else s

/-- `removeFiller` (lines 246-250): drop the filler and null out every
reference to it, in one state transition (both updates happen in the
same event handler, so no intermediate state is rendered). -/
def removeFiller (s : AppState) (id : String) : AppState :=
  { s with
    fillers := s.fillers.filter fun f => !(f.id == id),
    placedFields := s.placedFields.map fun f =>
      if f.assignedTo = some id then { f with assignedTo := none } else f }

/-- `handleDrop` (lines 252-258): append a new unassigned field with the
next id and bump the counter. -/
def handleDrop (s : AppState) (ty : String) (pageNum : Nat) (left top : Rat) : AppState :=
  { s with
    placedFields := s.placedFields ++
      [{ id := s.nextId, pageNum := pageNum, left := left, top := top,
         type := ty, assignedTo := none }],
    nextId := s.nextId + 1 }

/-- `handleMoveField` (lines 260-264). -/
def handleMoveField (s : AppState) (id : Nat) (left top : Rat) : AppState :=
  { s with placedFields := s.placedFields.map fun f =>
      if f.id = id then { f with left := left, top := top } else f }

/-- `handleAssignField` (lines 266-270); `fillerId || null` maps the
empty string (the "Unassigned" option) to null. -/
def handleAssignField (s : AppState) (fieldId : Nat) (rid : String) : AppState :=
  { s with placedFields := s.placedFields.map fun f =>
      if f.id = fieldId then
        { f with assignedTo := if rid == "" then none else some rid }
      else f }

/-! ### Send readiness and payload (lines 272-297, 351) -/

/-- JavaScript falsiness of an `assignedTo` value (`!field.assignedTo`,
lines 274 and 351): null and the empty string are falsy. -/
def optFalsy : Option String → Bool
  | none => true
  | some s => s == ""

/-- The negation of the Send button's disabled condition (line 351):
`placedFields.length === 0 || fillers.length === 0 ||
placedFields.some(f => !f.assignedTo)`. -/
def isReadyToSend (fields : List Field) (fillers : List Filler) : Bool :=
  !(fields.length == 0 || fillers.length == 0 ||
    fields.any fun f => optFalsy f.assignedTo)

/-- A payload field entry: the `({id, ...rest}) => rest` projection at
line 290.  The type has no `id` component, so no internal field id can
occur in a payload. -/
structure PayloadField where
  pageNum : Nat
  left : Rat
  top : Rat
  type : String
  assignedTo : Option String
deriving DecidableEq

/-- The id-stripping projection applied to each field at line 290. -/
def payloadOfField (f : Field) : PayloadField :=
  { pageNum := f.pageNum, left := f.left, top := f.top,
    type := f.type, assignedTo := f.assignedTo }

/-- The `dataToSend` object (lines 288-292). -/
structure SendPayload where
  fillers : List Filler
  fields : List PayloadField
deriving DecidableEq

/-- The payload expression at lines 288-292. -/
def dataToSend (s : AppState) : SendPayload :=
  { fillers := s.fillers, fields := s.placedFields.map payloadOfField }

/-- `handleSend` (lines 272-297): the three guarded early returns (each
showing its alert), then the payload.  Returns `none` when sending was
refused. -/
def handleSend (s : AppState) : Option SendPayload :=
  if s.placedFields.length == 0 then none
  else if s.placedFields.any (fun f => optFalsy f.assignedTo) then none
  else if s.fillers.length == 0 then none
  else some (dataToSend s)

/-! ### Events and the cross-store invariant -/

/-- The state-mutating events of one document session. -/
inductive Event where
  | evAddFiller (email : String) (now : Nat)
  | evRemoveFiller (id : String)
  | evDrop (ty : String) (page : Nat) (left top : Rat)
  | evMoveField (id : Nat) (left top : Rat)
  | evAssignField (fieldId : Nat) (rid : String)
deriving DecidableEq

/-- Dispatch of one event to the corresponding handler. -/
def step (s : AppState) : Event → AppState
  | .evAddFiller e t => addFiller s e t
  | .evRemoveFiller i => removeFiller s i
  | .evDrop ty p l t => handleDrop s ty p l t
  | .evMoveField i l t => handleMoveField s i l t
  | .evAssignField fid rid => handleAssignField s fid rid

/-- One field's reference is live: unassigned, or assigned to the id of
some filler in the list. -/
def fieldOk (fillers : List Filler) (f : Field) : Bool :=
  match f.assignedTo with
  | none => true
  | some rid => fillers.any fun r => r.id == rid

/-- The cross-store invariant: every field's `assignedTo` is null or a
live recipient id. -/
def consistent (s : AppState) : Bool :=
  s.placedFields.all (fieldOk s.fillers)

/-- Whether an event's payload only references live state: an
assignment must carry the empty string or a current filler id.  The UI
guarantees this (the `select` at lines 62-72 offers exactly the empty
"Unassigned" option and the current fillers), but `handleAssignField`
itself does not check it. -/
def eventOk (s : AppState) : Event → Bool
  | .evAssignField _ rid => rid == "" || s.fillers.any fun r => r.id == rid
  | _ => true

/-- Repeated recipient addition: the session calls `addFiller` once per
(email, `Date.now()` timestamp) input. -/
def runAdds : AppState → List (String × Nat) → AppState
  | s, [] => s
  | s, p :: rest => runAdds (addFiller s p.1 p.2) rest

/-! ### Example states used by witnesses -/

/-- A field placed at (25, 5) on page 1 and assigned. -/
def exField : Field :=
  { id := 0, pageNum := 1, left := 25, top := 5, type := "Signature",
    assignedTo := some "filler_7" }

/-- The filler the example field is assigned to. -/
def exFiller : Filler := { id := "filler_7", email := "a@x.com" }

/-- A ready-to-send example state. -/
def exState : AppState := { placedFields := [exField], fillers := [exFiller], nextId := 1 }

/-- Three fields, two of them assigned to recipient `r1`. -/
def exState4 : AppState :=
  { placedFields :=
      [{ id := 0, pageNum := 1, left := 10, top := 10, type := "Text", assignedTo := some "r1" },
       { id := 1, pageNum := 1, left := 20, top := 20, type := "Date", assignedTo := some "r2" },
       { id := 2, pageNum := 2, left := 30, top := 30, type := "Text", assignedTo := some "r1" }],
    fillers := [{ id := "r1", email := "a@x.com" }, { id := "r2", email := "b@y.com" }],
    nextId := 3 }

/-- One unassigned field and no fillers. -/
def exState8 : AppState :=
  { placedFields :=
      [{ id := 0, pageNum := 1, left := 10, top := 10, type := "Text", assignedTo := none }],
    fillers := [], nextId := 1 }

/-! ### Helper lemmas -/

theorem clamp01_nonneg (v : Rat) : 0 ≤ clamp01 v := le_max_left 0 _

theorem clamp01_le_hundred (v : Rat) : clamp01 v ≤ 100 :=
  max_le (by norm_num) (min_le_left _ _)

/-- Clamping commutes with repeating the same translation: starting from
an in-range coordinate, translating and clamping twice by `a` lands where
translating once by `2 * a` and clamping does. -/
theorem clamp01_add_add (x a : Rat) (h0 : 0 ≤ x) (h1 : x ≤ 100) :
    clamp01 (clamp01 (x + a) + a) = clamp01 (x + 2 * a) := by
  simp only [clamp01, max_def, min_def]
  split_ifs <;> linarith

/-- With a nonzero divisor the new-drop pipeline of `Math.max`,
`Math.min`, multiplication and division computes the clamped rational
formula. -/
theorem js_clamp_div (a w : Rat) (hw : w ≠ 0) :
    jsMax (.fin 0) (jsMin (.fin 100) (jsMul (jsDiv (.fin a) (.fin w)) (.fin 100)))
      = .fin (clamp01 (a / w * 100)) := by
  simp [jsDiv, hw, jsMul, jsMin, jsMax, clamp01, max_def, min_def]

/-- With a nonzero divisor the move pipeline computes the clamped
rational formula. -/
theorem js_clamp_add_div (x d w : Rat) (hw : w ≠ 0) :
    jsMax (.fin 0) (jsMin (.fin 100)
        (jsAdd (.fin x) (jsMul (jsDiv (.fin d) (.fin w)) (.fin 100))))
      = .fin (clamp01 (x + d / w * 100)) := by
  simp [jsDiv, hw, jsMul, jsAdd, jsMin, jsMax, clamp01, max_def, min_def]

/-! ### C1: send readiness -/

/-- C1.  `isReadyToSend` (the negation of the Send button's disabled
condition, line 351) is true exactly when the field list is non-empty,
the filler list is non-empty, and every field has a non-null
`assignedTo`; and `handleSend` (lines 272-286) permits sending exactly
when `isReadyToSend` holds.  The hypothesis records the session
invariant that `assignedTo` is never the (JavaScript-falsy) empty
string: `handleAssignField` maps the empty selection to null. -/
theorem isReadyToSend_iff (fields : List Field) (fillers : List Filler) (n : Nat)
    (h : ∀ f ∈ fields, f.assignedTo ≠ some "") :
    (isReadyToSend fields fillers = true ↔
      fields ≠ [] ∧ fillers ≠ [] ∧ ∀ f ∈ fields, f.assignedTo ≠ none) ∧
    ((handleSend ⟨fields, fillers, n⟩).isSome = true ↔
      isReadyToSend fields fillers = true) := by
  constructor
  · simp only [isReadyToSend, Bool.not_eq_true', Bool.or_eq_false_iff,
      List.any_eq_false, beq_eq_false_iff_ne, ne_eq, List.length_eq_zero]
    constructor
    · rintro ⟨⟨h1, h2⟩, h3⟩
      refine ⟨h1, h2, fun f hf hnone => ?_⟩
      have := h3 f hf
      simp [optFalsy, hnone] at this
    · rintro ⟨h1, h2, h3⟩
      refine ⟨⟨h1, h2⟩, fun f hf => ?_⟩
      cases ha : f.assignedTo with
      | none => exact absurd ha (h3 f hf)
      | some v =>
        have hv : v ≠ "" := by
          intro hv
          exact h f hf (by rw [ha, hv])
        simp [optFalsy, hv]
  · simp only [handleSend, isReadyToSend]
    split_ifs <;> simp_all

/-- Witness for C1 at a concrete ready state. -/
theorem isReadyToSend_iff_witness :
    isReadyToSend [exField] [exFiller] = true ∧
    (handleSend ⟨[exField], [exFiller], 1⟩).isSome = true := by
  have h := isReadyToSend_iff [exField] [exFiller] 1 (by decide)
  have hr : isReadyToSend [exField] [exFiller] = true :=
    h.1.mpr ⟨by decide, by decide, by decide⟩
  exact ⟨hr, h.2.mpr hr⟩

/-! ### C2: placing a new field -/

/-- C2.  For a surface box of positive width and height, the drop
handler's new-field branch stores exactly
`clamp (pointer offset − box origin) / box size * 100` in each axis, the
result lies in `[0, 100]`, and the drop at pointer offset (50, 20) in
the box at origin (0, 0) of size 200 × 400 lands at (25, 5). -/
theorem placeNew_spec (ty : String) (page : Nat) (del : Option (Rat × Rat))
    (off : Rat × Rat) (box : SurfaceBox) (hw : 0 < box.width) (hh : 0 < box.height) :
    (dropHandler (.paletteItem ty) del (some off) box page
        = some (.newField ty page (.fin (placeNew off box).1) (.fin (placeNew off box).2))) ∧
    ((placeNew off box).1 = clamp01 ((off.1 - box.left) / box.width * 100) ∧
     (placeNew off box).2 = clamp01 ((off.2 - box.top) / box.height * 100)) ∧
    (0 ≤ (placeNew off box).1 ∧ (placeNew off box).1 ≤ 100 ∧
     0 ≤ (placeNew off box).2 ∧ (placeNew off box).2 ≤ 100) ∧
    placeNew (50, 20) ⟨0, 0, 200, 400⟩ = (25, 5) := by
  refine ⟨?_, ⟨rfl, rfl⟩,
    ⟨clamp01_nonneg _, clamp01_le_hundred _, clamp01_nonneg _, clamp01_le_hundred _⟩, ?_⟩
  · simp only [dropHandler, placeNew,
      js_clamp_div _ _ (ne_of_gt hw), js_clamp_div _ _ (ne_of_gt hh)]
  · have h1 : clamp01 ((50 - 0) / 200 * 100) = 25 := by
      rw [show ((50 : Rat) - 0) / 200 * 100 = 25 by norm_num, clamp01,
        min_eq_right (by norm_num), max_eq_right (by norm_num)]
    have h2 : clamp01 ((20 - 0) / 400 * 100) = 5 := by
      rw [show ((20 : Rat) - 0) / 400 * 100 = 5 by norm_num, clamp01,
        min_eq_right (by norm_num), max_eq_right (by norm_num)]
    simp only [placeNew, h1, h2]

/-- Witness for C2 at the scenario input. -/
theorem placeNew_spec_witness :
    dropHandler (.paletteItem "Signature") none (some (50, 20)) ⟨0, 0, 200, 400⟩ 1
        = some (.newField "Signature" 1
            (.fin (placeNew (50, 20) ⟨0, 0, 200, 400⟩).1)
            (.fin (placeNew (50, 20) ⟨0, 0, 200, 400⟩).2)) ∧
    placeNew (50, 20) ⟨0, 0, 200, 400⟩ = (25, 5) :=
  ⟨(placeNew_spec "Signature" 1 none (50, 20) ⟨0, 0, 200, 400⟩
      (by norm_num) (by norm_num)).1,
   (placeNew_spec "Signature" 1 none (50, 20) ⟨0, 0, 200, 400⟩
      (by norm_num) (by norm_num)).2.2.2⟩

/-! ### C3: moving an existing field -/

/-- C3.  For a surface box of positive width and height, the drop
handler's move branch stores
`clamp (current + pixel delta / box size * 100)` in each axis.  The
statement quantifies over the pointer's absolute client offset `off`
and the result does not depend on it: only the delta since drag start
(`monitor.getDifferenceFromInitialOffset()`, line 135) enters. -/
theorem moveExisting_spec (id : Nat) (ty : String) (page : Nat)
    (off : Option (Rat × Rat)) (cur d : Rat × Rat) (box : SurfaceBox)
    (hw : 0 < box.width) (hh : 0 < box.height) :
    (dropHandler (.placedItem id cur.1 cur.2 ty) (some d) off box page
        = some (.moveField id (.fin (moveExisting cur d box).1)
            (.fin (moveExisting cur d box).2))) ∧
    ((moveExisting cur d box).1 = clamp01 (cur.1 + d.1 / box.width * 100) ∧
     (moveExisting cur d box).2 = clamp01 (cur.2 + d.2 / box.height * 100)) ∧
    (0 ≤ (moveExisting cur d box).1 ∧ (moveExisting cur d box).1 ≤ 100 ∧
     0 ≤ (moveExisting cur d box).2 ∧ (moveExisting cur d box).2 ≤ 100) := by
  refine ⟨?_, ⟨rfl, rfl⟩,
    ⟨clamp01_nonneg _, clamp01_le_hundred _, clamp01_nonneg _, clamp01_le_hundred _⟩⟩
  simp only [dropHandler, moveExisting,
    js_clamp_add_div _ _ _ (ne_of_gt hw), js_clamp_add_div _ _ _ (ne_of_gt hh)]

/-- Witness for C3: grabbing the example field and dragging it by
(30, −10) pixels in a 200 × 400 box moves it from (25, 5) by (15, −2.5)
percent, clamped at the top edge. -/
theorem moveExisting_spec_witness :
    dropHandler (.placedItem 0 25 5 "Signature") (some (30, -10)) none ⟨0, 0, 200, 400⟩ 1
        = some (.moveField 0
            (.fin (moveExisting (25, 5) (30, -10) ⟨0, 0, 200, 400⟩).1)
            (.fin (moveExisting (25, 5) (30, -10) ⟨0, 0, 200, 400⟩).2)) :=
  (moveExisting_spec 0 "Signature" 1 none (25, 5) (30, -10) ⟨0, 0, 200, 400⟩
    (by norm_num) (by norm_num)).1

/-! ### C9: translation consistency of moves -/

/-- C9.  Starting from an in-range position, moving a field twice by the
pixel delta (dx, dy) in the same surface box gives the same result as
moving it once by (2dx, 2dy). -/
theorem moveExisting_translation (cur d : Rat × Rat) (box : SurfaceBox)
    (hw : 0 < box.width) (hh : 0 < box.height)
    (hl0 : 0 ≤ cur.1) (hl1 : cur.1 ≤ 100) (ht0 : 0 ≤ cur.2) (ht1 : cur.2 ≤ 100) :
    moveExisting (moveExisting cur d box) d box
      = moveExisting cur (2 * d.1, 2 * d.2) box := by
  have e1 : (2 * d.1) / box.width * 100 = 2 * (d.1 / box.width * 100) := by ring
  have e2 : (2 * d.2) / box.height * 100 = 2 * (d.2 / box.height * 100) := by ring
  simp only [moveExisting, e1, e2]
  exact Prod.ext (clamp01_add_add _ _ hl0 hl1) (clamp01_add_add _ _ ht0 ht1)

/-- Witness for C9: a double move by (20, −30) pixels from (90, 10) in a
100 × 100 box equals one move by (40, −60). -/
theorem moveExisting_translation_witness :
    moveExisting (moveExisting (90, 10) (20, -30) ⟨0, 0, 100, 100⟩) (20, -30) ⟨0, 0, 100, 100⟩
      = moveExisting (90, 10) (40, -60) ⟨0, 0, 100, 100⟩ := by
  have e : ((40 : Rat), (-60 : Rat)) = (2 * (20 : Rat), 2 * (-30 : Rat)) := by norm_num
  rw [e]
  exact moveExisting_translation (90, 10) (20, -30) ⟨0, 0, 100, 100⟩
    (by norm_num) (by norm_num) (by norm_num) (by norm_num) (by norm_num) (by norm_num)

/-! ### C4: cascading unassignment on recipient removal -/

/-- The count of entries changed by the cascade equals the count of
fields referencing the removed id. -/
theorem countP_zip_unassign (rid : String) : ∀ l : List Field,
    List.countP (fun p => decide (p.1 ≠ p.2))
        ((l.map fun f => if f.assignedTo = some rid then { f with assignedTo := none } else f).zip l)
      = List.countP (fun f => decide (f.assignedTo = some rid)) l := by
  intro l
  induction l with
  | nil => rfl
  | cons a l ih =>
    simp only [List.map_cons, List.zip_cons_cons, List.countP_cons, ih]
    by_cases h : a.assignedTo = some rid
    · have hne : ({ a with assignedTo := none } : Field) ≠ a := by
        intro heq
        have := congrArg Field.assignedTo heq
        rw [h] at this
        exact Option.noConfusion this
      simp [h, hne]
    · simp [h]

/-- C4.  `removeFiller` (lines 246-250) leaves the field count unchanged,
rewrites each field that referenced the removed recipient to
`assignedTo = null` while touching nothing else about it, leaves all
other fields identical (so with `k` referencing fields exactly `k`
entries change), and removes exactly the recipient itself; both updates
happen in the same event handler, so no intermediate state with a
dangling reference is observable. -/
theorem removeFiller_frame (s : AppState) (rid : String) (k : Nat)
    (hk : List.countP (fun f => decide (f.assignedTo = some rid)) s.placedFields = k) :
    (removeFiller s rid).placedFields.length = s.placedFields.length ∧
    (∀ i, (removeFiller s rid).placedFields.get? i =
        (s.placedFields.get? i).map fun f =>
          if f.assignedTo = some rid then { f with assignedTo := none } else f) ∧
    List.countP (fun p => decide (p.1 ≠ p.2))
        ((removeFiller s rid).placedFields.zip s.placedFields) = k ∧
    (∀ i f g, s.placedFields.get? i = some f →
        (removeFiller s rid).placedFields.get? i = some g →
        g.id = f.id ∧ g.pageNum = f.pageNum ∧ g.left = f.left ∧ g.top = f.top ∧
        g.type = f.type ∧
        (f.assignedTo = some rid → g.assignedTo = none) ∧
        (f.assignedTo ≠ some rid → g.assignedTo = f.assignedTo)) ∧
    (removeFiller s rid).fillers = s.fillers.filter fun f => !(f.id == rid) := by
  refine ⟨by simp [removeFiller], fun i => by simp [removeFiller, List.get?_map], ?_, ?_, rfl⟩
  · rw [show (removeFiller s rid).placedFields =
        s.placedFields.map fun f =>
          if f.assignedTo = some rid then { f with assignedTo := none } else f from rfl,
      countP_zip_unassign rid s.placedFields, hk]
  · intro i f g hf hg
    rw [show (removeFiller s rid).placedFields =
        s.placedFields.map fun f =>
          if f.assignedTo = some rid then { f with assignedTo := none } else f from rfl,
      List.get?_map, hf] at hg
    have hg' : g = if f.assignedTo = some rid then { f with assignedTo := none } else f :=
      (Option.some.injEq _ _ ▸ hg).symm
    by_cases h : f.assignedTo = some rid
    · rw [hg', if_pos h]
      exact ⟨rfl, rfl, rfl, rfl, rfl, fun _ => rfl, fun hc => absurd h hc⟩
    · rw [hg', if_neg h]
      exact ⟨rfl, rfl, rfl, rfl, rfl, fun hc => absurd hc h, fun _ => rfl⟩

/-- Witness for C4: removing `r1` from the three-field example state
nulls exactly the two fields assigned to it. -/
theorem removeFiller_frame_witness :
    (removeFiller exState4 "r1").placedFields.length = 3 ∧
    List.countP (fun p => decide (p.1 ≠ p.2))
        ((removeFiller exState4 "r1").placedFields.zip exState4.placedFields) = 2 ∧
    (removeFiller exState4 "r1").placedFields.map Field.assignedTo
      = [none, some "r2", none] := by
  have h := removeFiller_frame exState4 "r1" 2 (by decide)
  exact ⟨h.1.trans rfl, h.2.2.1, by decide⟩

/-! ### C6: recipient addition is rejected exactly on bad input -/

/-- C6.  `addFiller` (lines 238-244) leaves the filler store unchanged
exactly when the email is empty, fails the `\S+@\S+\.\S+` shape test, or
is already present under case-sensitive string equality; and adding
`a@x.com` twice (at any two timestamps) is rejected the second time with
the store size still 1. -/
theorem addFiller_rejected_iff :
    (∀ (s : AppState) (e : String) (t : Nat),
      ((addFiller s e t).fillers = s.fillers ↔
        (e = "" ∨ emailShapeTest e = false ∨
          (s.fillers.any fun f => f.email == e) = true))) ∧
    (∀ t1 t2 : Nat,
      (addFiller (addFiller initialState "a@x.com" t1) "a@x.com" t2).fillers
          = (addFiller initialState "a@x.com" t1).fillers ∧
      (addFiller initialState "a@x.com" t1).fillers.length = 1) := by
  have hmain : ∀ (s : AppState) (e : String) (t : Nat),
      ((addFiller s e t).fillers = s.fillers ↔
        (e = "" ∨ emailShapeTest e = false ∨
          (s.fillers.any fun f => f.email == e) = true)) := by
    intro s e t
    by_cases hc : (!(e == "") && emailShapeTest e
        && !(s.fillers.any fun f => f.email == e)) = true
    · rw [addFiller, if_pos hc]
      simp only [Bool.and_eq_true, Bool.not_eq_true'] at hc
      obtain ⟨⟨h1, h2⟩, h3⟩ := hc
      have hL : ¬ (s.fillers ++ [{ id := fillerId t, email := e }] = s.fillers) := by
        intro heq
        have := congrArg List.length heq
        simp at this
      refine iff_of_false hL ?_
      rintro (h | h | h)
      · rw [h] at h1; simp at h1
      · rw [h2] at h; exact Bool.noConfusion h
      · rw [h3] at h; exact Bool.noConfusion h
    · rw [addFiller, if_neg hc]
      refine iff_of_true rfl ?_
      by_cases h1 : (e == "") = true
      · exact Or.inl (eq_of_beq h1)
      · by_cases h2 : emailShapeTest e = true
        · by_cases h3 : (s.fillers.any fun f => f.email == e) = true
          · exact Or.inr (Or.inr h3)
          · exact absurd (by
              rw [Bool.not_eq_true] at h1 h3
              rw [h1, h2, h3]
              rfl) hc
        · exact Or.inr (Or.inl (Bool.not_eq_true _ ▸ h2))
  refine ⟨hmain, fun t1 t2 => ?_⟩
  have h1 : addFiller initialState "a@x.com" t1
      = { placedFields := [], fillers := [{ id := fillerId t1, email := "a@x.com" }],
          nextId := 0 } := by
    rw [addFiller, if_pos (by decide)]
    rfl
  constructor
  · rw [(hmain _ "a@x.com" t2).2 (Or.inr (Or.inr (by rw [h1]; rfl)))]
  · rw [h1]
    rfl

/-! ### C7: the payload strips ids and preserves everything else -/

/-- C7.  The payload (lines 288-292) carries the full filler list and
one entry per placed field in order; each entry is the id-stripping
projection of the corresponding field, preserving page number, position,
type and assignment (the `PayloadField` type has no id component, so no
internal field id can occur in a payload); and a successful `handleSend`
sends exactly this payload. -/
theorem buildPayload_spec (s : AppState) :
    (dataToSend s).fillers = s.fillers ∧
    (dataToSend s).fields.length = s.placedFields.length ∧
    (∀ i, (dataToSend s).fields.get? i = (s.placedFields.get? i).map payloadOfField) ∧
    (∀ i f pf, s.placedFields.get? i = some f →
        (dataToSend s).fields.get? i = some pf →
        pf.pageNum = f.pageNum ∧ pf.left = f.left ∧ pf.top = f.top ∧
        pf.type = f.type ∧ pf.assignedTo = f.assignedTo) ∧
    (∀ p, handleSend s = some p → p = dataToSend s) := by
  refine ⟨rfl, by simp [dataToSend], fun i => by simp [dataToSend, List.get?_map], ?_, ?_⟩
  · intro i f pf hf hpf
    rw [show (dataToSend s).fields = s.placedFields.map payloadOfField from rfl,
      List.get?_map, hf] at hpf
    have : pf = payloadOfField f := (Option.some.injEq _ _ ▸ hpf).symm
    rw [this]
    exact ⟨rfl, rfl, rfl, rfl, rfl⟩
  · intro p hp
    rw [handleSend] at hp
    split_ifs at hp
    exact (Option.some.injEq _ _ ▸ hp).symm

/-- Witness for C7 at the example ready state. -/
theorem buildPayload_spec_witness :
    (dataToSend exState).fillers = [exFiller] ∧
    (dataToSend exState).fields.length = 1 ∧
    (dataToSend exState).fields.get? 0 = some (payloadOfField exField) ∧
    handleSend exState = some (dataToSend exState) := by
  have h := buildPayload_spec exState
  refine ⟨h.1, h.2.1.trans rfl, ?_, ?_⟩
  · rw [h.2.2.1 0]; rfl
  · have hsome : handleSend exState = some (dataToSend exState) := by decide
    rw [hsome, h.2.2.2.2 (dataToSend exState) hsome]

/-! ### C5: zero-size surface boxes are not skipped (code bug) -/

/-- C5 evaluation.  The drop handler has no zero-size guard (unlike
`renderPage`, which checks `width === 0` at line 89): on a 0 × 0 box
with the pointer at the box origin, `0 / 0` is NaN and a field is
created with `left = NaN`, `top = NaN`; and on a box that has its width
laid out but not yet its height (the transient state before line 100
runs), a drop creates a field with `top` clamped from Infinity to 100
instead of being skipped. -/
theorem zeroBox_drop_not_skipped :
    dropHandler (.paletteItem "Signature") none (some (0, 0)) ⟨0, 0, 0, 0⟩ 1
        = some (.newField "Signature" 1 .nan .nan) ∧
    dropHandler (.paletteItem "Text") none (some (100, 50)) ⟨0, 0, 200, 0⟩ 1
        = some (.newField "Text" 1 (.fin 50) (.fin 100)) := by
  constructor <;> norm_num [dropHandler, jsDiv, jsMul, jsMin, jsMax]

/-! ### C8: the cross-store invariant -/

/-- One field's reference is live, in propositional form. -/
theorem fieldOk_iff (fl : List Filler) (f : Field) :
    fieldOk fl f = true ↔
      f.assignedTo = none ∨ ∃ r ∈ fl, f.assignedTo = some r.id := by
  cases ha : f.assignedTo with
  | none => simp [fieldOk, ha]
  | some rid =>
    simp only [fieldOk, ha, List.any_eq_true, beq_iff_eq, Option.some.injEq]
    constructor
    · rintro ⟨r, hr, hid⟩
      exact Or.inr ⟨r, hr, hid.symm⟩
    · rintro (h | ⟨r, hr, hid⟩)
      · exact Option.noConfusion h
      · exact ⟨r, hr, hid.symm⟩

/-- The invariant in propositional form. -/
theorem consistent_iff (s : AppState) :
    consistent s = true ↔
      ∀ f ∈ s.placedFields,
        f.assignedTo = none ∨ ∃ r ∈ s.fillers, f.assignedTo = some r.id := by
  simp [consistent, List.all_eq_true, fieldOk_iff]

/-- C8 counterexample.  `handleAssignField` performs no existence
validation: assigning the id `ghost`, which names no recipient, to the
only field of a consistent state stores the dangling reference. -/
theorem assignField_unvalidated :
    consistent exState8 = true ∧
    (handleAssignField exState8 0 "ghost").placedFields.map Field.assignedTo
      = [some "ghost"] ∧
    consistent (handleAssignField exState8 0 "ghost") = false := by
  refine ⟨rfl, ?_, rfl⟩
  rfl

/-- C8 amended.  Every operation preserves the invariant "each field's
`assignedTo` is null or a live recipient id", provided each assignment
event carries the empty string or a currently-listed recipient id — the
guarantee the UI `select` (lines 62-72) provides, since its options are
exactly "Unassigned" and the current fillers.  Recipient removal
cascades in the same step, so the invariant never breaks across a
removal. -/
theorem consistent_preserved (s : AppState) (e : Event)
    (h1 : consistent s = true) (h2 : eventOk s e = true) :
    consistent (step s e) = true := by
  rw [consistent_iff] at h1 ⊢
  cases e with
  | evAddFiller em t =>
    intro f hf
    by_cases hc : (!(em == "") && emailShapeTest em
        && !(s.fillers.any fun g => g.email == em)) = true
    · rw [show step s (.evAddFiller em t) = addFiller s em t from rfl,
        addFiller, if_pos hc] at hf ⊢
      rcases h1 f hf with h | ⟨r, hr, hid⟩
      · exact Or.inl h
      · exact Or.inr ⟨r, List.mem_append_left _ hr, hid⟩
    · rw [show step s (.evAddFiller em t) = addFiller s em t from rfl,
        addFiller, if_neg hc] at hf ⊢
      exact h1 f hf
  | evRemoveFiller rid =>
    intro f hf
    rw [show step s (.evRemoveFiller rid) = removeFiller s rid from rfl] at hf ⊢
    simp only [removeFiller, List.mem_map] at hf
    obtain ⟨f0, hf0, rfl⟩ := hf
    by_cases h : f0.assignedTo = some rid
    · rw [if_pos h]
      exact Or.inl rfl
    · rw [if_neg h]
      rcases h1 f0 hf0 with hn | ⟨r, hr, hid⟩
      · exact Or.inl hn
      · refine Or.inr ⟨r, ?_, hid⟩
        have hrid : r.id ≠ rid := by
          intro heq
          rw [heq] at hid
          exact h hid
        simp only [removeFiller, List.mem_filter]
        exact ⟨hr, by simp [hrid]⟩
  | evDrop ty p l t =>
    intro f hf
    rw [show step s (.evDrop ty p l t) = handleDrop s ty p l t from rfl] at hf ⊢
    simp only [handleDrop, List.mem_append, List.mem_singleton] at hf
    rcases hf with hf | rfl
    · rcases h1 f hf with h | ⟨r, hr, hid⟩
      · exact Or.inl h
      · exact Or.inr ⟨r, hr, hid⟩
    · exact Or.inl rfl
  | evMoveField i l t =>
    intro f hf
    rw [show step s (.evMoveField i l t) = handleMoveField s i l t from rfl] at hf ⊢
    simp only [handleMoveField, List.mem_map] at hf
    obtain ⟨f0, hf0, rfl⟩ := hf
    by_cases h : f0.id = i
    · rw [if_pos h]
      exact h1 f0 hf0
    · rw [if_neg h]
      exact h1 f0 hf0
  | evAssignField fid rid =>
    intro f hf
    rw [show step s (.evAssignField fid rid) = handleAssignField s fid rid from rfl] at hf ⊢
    simp only [handleAssignField, List.mem_map] at hf
    obtain ⟨f0, hf0, rfl⟩ := hf
    by_cases h : f0.id = fid
    · rw [if_pos h]
      by_cases hr : (rid == "") = true
      · rw [if_pos hr]
        exact Or.inl rfl
      · rw [if_neg hr]
        rw [show eventOk s (.evAssignField fid rid)
            = (rid == "" || s.fillers.any fun r => r.id == rid) from rfl,
          Bool.or_eq_true] at h2
        rcases h2 with h2 | h2
        · exact absurd h2 hr
        · rw [List.any_eq_true] at h2
          obtain ⟨r, hrmem, hrid⟩ := h2
          exact Or.inr ⟨r, hrmem, by rw [eq_of_beq hrid]⟩
    · rw [if_neg h]
      exact h1 f0 hf0

/-- Witness for the amended C8 at a concrete state and event. -/
theorem consistent_preserved_witness :
    consistent (step exState8 (.evAddFiller "a@x.com" 3)) = true :=
  consistent_preserved exState8 (.evAddFiller "a@x.com" 3) (by rfl) (by rfl)

/-! ### C10: uniqueness of generated recipient ids

The id is `filler_` + the decimal rendering of `Date.now()`
(`fillerId`).  Injectivity of the decimal rendering is established by
evaluating the digit string back to the number. -/

/-- Evaluate a decimal digit string. -/
def decVal (ds : List Char) : Nat :=
  ds.foldl (fun a c => 10 * a + (c.toNat - 48)) 0

theorem digitChar_toNat_sub : ∀ d, d < 10 → (Nat.digitChar d).toNat - 48 = d := by decide

theorem toDigitsCore_append (fuel : Nat) : ∀ (n : Nat) (ds : List Char), n < fuel →
    Nat.toDigitsCore 10 fuel n ds = Nat.toDigitsCore 10 fuel n [] ++ ds := by
  induction fuel with
  | zero => intro n ds h; exact absurd h (Nat.not_lt_zero n)
  | succ f ih =>
    intro n ds h
    simp only [Nat.toDigitsCore]
    by_cases h0 : n / 10 = 0
    · rw [if_pos h0, if_pos h0]
      rfl
    · rw [if_neg h0, if_neg h0]
      have hn : 0 < n := Nat.pos_of_ne_zero fun hz => h0 (by rw [hz])
      have hd : n / 10 < n := Nat.div_lt_self hn (by norm_num)
      have hf : n / 10 < f := lt_of_lt_of_le hd (Nat.lt_succ_iff.mp h)
      rw [ih (n / 10) _ hf, ih (n / 10) [Nat.digitChar (n % 10)] hf,
        List.append_assoc]
      rfl

theorem toDigitsCore_fuel (fuel1 : Nat) : ∀ (fuel2 n : Nat), n < fuel1 → n < fuel2 →
    Nat.toDigitsCore 10 fuel1 n [] = Nat.toDigitsCore 10 fuel2 n [] := by
  induction fuel1 with
  | zero => intro _ n h _; exact absurd h (Nat.not_lt_zero n)
  | succ f1 ih =>
    intro fuel2 n h1 h2
    cases fuel2 with
    | zero => exact absurd h2 (Nat.not_lt_zero n)
    | succ f2 =>
      simp only [Nat.toDigitsCore]
      by_cases h0 : n / 10 = 0
      · rw [if_pos h0, if_pos h0]
      · rw [if_neg h0, if_neg h0]
        have hn : 0 < n := Nat.pos_of_ne_zero fun hz => h0 (by rw [hz])
        have hd : n / 10 < n := Nat.div_lt_self hn (by norm_num)
        have hf1 : n / 10 < f1 := lt_of_lt_of_le hd (Nat.lt_succ_iff.mp h1)
        have hf2 : n / 10 < f2 := lt_of_lt_of_le hd (Nat.lt_succ_iff.mp h2)
        rw [toDigitsCore_append f1 _ _ hf1, toDigitsCore_append f2 _ _ hf2,
          ih f2 _ hf1 hf2]

theorem decVal_append_digit (ds : List Char) (c : Char) :
    decVal (ds ++ [c]) = 10 * decVal ds + (c.toNat - 48) := by
  simp [decVal, List.foldl_append]

theorem decVal_toDigitsCore (fuel : Nat) : ∀ n, n < fuel →
    decVal (Nat.toDigitsCore 10 fuel n []) = n := by
  induction fuel with
  | zero => intro n h; exact absurd h (Nat.not_lt_zero n)
  | succ f ih =>
    intro n h
    simp only [Nat.toDigitsCore]
    by_cases h0 : n / 10 = 0
    · rw [if_pos h0]
      have hn : n < 10 := by omega
      have hm : n % 10 = n := Nat.mod_eq_of_lt hn
      show decVal [Nat.digitChar (n % 10)] = n
      rw [hm]
      show 10 * 0 + ((Nat.digitChar n).toNat - 48) = n
      rw [digitChar_toNat_sub n hn]
      omega
    · rw [if_neg h0]
      have hn : 0 < n := Nat.pos_of_ne_zero fun hz => h0 (by rw [hz])
      have hd : n / 10 < n := Nat.div_lt_self hn (by norm_num)
      have hf : n / 10 < f := lt_of_lt_of_le hd (Nat.lt_succ_iff.mp h)
      rw [toDigitsCore_append f _ _ hf, decVal_append_digit, ih _ hf,
        digitChar_toNat_sub _ (Nat.mod_lt _ (by norm_num))]
      omega

theorem natRepr_injective (m n : Nat) (h : Nat.repr m = Nat.repr n) : m = n := by
  have hdig : Nat.toDigitsCore 10 (m + 1) m [] = Nat.toDigitsCore 10 (n + 1) n [] :=
    congrArg String.data h
  calc m = decVal (Nat.toDigitsCore 10 (m + 1) m []) :=
        (decVal_toDigitsCore (m + 1) m (Nat.lt_succ_self m)).symm
    _ = decVal (Nat.toDigitsCore 10 (n + 1) n []) := by rw [hdig]
    _ = n := decVal_toDigitsCore (n + 1) n (Nat.lt_succ_self n)

theorem fillerId_inj (t1 t2 : Nat) (h : fillerId t1 = fillerId t2) : t1 = t2 := by
  apply natRepr_injective
  have hd := congrArg String.data h
  simp only [fillerId, String.data_append] at hd
  exact String.ext (List.append_cancel_left hd)

/-- C10 counterexample.  Two successful additions with distinct valid
emails in the same `Date.now()` millisecond (timestamp 5) both receive
the id `filler_5`: the session then holds two recipients with the same
id. -/
theorem addFiller_id_collision :
    (runAdds initialState [("a@x.com", 5), ("b@y.com", 5)]).fillers.map Filler.id
        = [fillerId 5, fillerId 5] ∧
    (runAdds initialState [("a@x.com", 5), ("b@y.com", 5)]).fillers.length = 2 ∧
    ¬ ((runAdds initialState [("a@x.com", 5), ("b@y.com", 5)]).fillers.map Filler.id).Nodup := by
  refine ⟨rfl, rfl, ?_⟩
  intro h
  rw [show (runAdds initialState [("a@x.com", 5), ("b@y.com", 5)]).fillers.map Filler.id
      = [fillerId 5, fillerId 5] from rfl] at h
  exact (List.pairwise_cons.mp h).1 (fillerId 5) (List.mem_singleton_self _) rfl

/-- Helper invariant for the amended C10: running further additions
whose timestamps are pairwise distinct and fresh for the current store
keeps the stored ids duplicate-free. -/
theorem runAdds_nodup_aux : ∀ (l : List (String × Nat)) (s : AppState),
    List.Pairwise (fun a b => a.2 ≠ b.2) l →
    (∀ f ∈ s.fillers, ∀ p ∈ l, f.id ≠ fillerId p.2) →
    (s.fillers.map Filler.id).Nodup →
    ((runAdds s l).fillers.map Filler.id).Nodup := by
  intro l
  induction l with
  | nil => intro s _ _ h; exact h
  | cons p rest ih =>
    intro s hp hfresh hnd
    show ((runAdds (addFiller s p.1 p.2) rest).fillers.map Filler.id).Nodup
    by_cases hc : (!(p.1 == "") && emailShapeTest p.1
        && !(s.fillers.any fun f => f.email == p.1)) = true
    · have hstep : (addFiller s p.1 p.2).fillers
          = s.fillers ++ [{ id := fillerId p.2, email := p.1 }] := by
        rw [addFiller, if_pos hc]
      apply ih (addFiller s p.1 p.2) (List.Pairwise.of_cons hp)
      · intro f hf q hq
        rw [hstep, List.mem_append, List.mem_singleton] at hf
        rcases hf with hf | rfl
        · exact hfresh f hf q (List.mem_cons_of_mem p hq)
        · show fillerId p.2 ≠ fillerId q.2
          intro heq
          exact (List.pairwise_cons.mp hp).1 q hq (fillerId_inj _ _ heq)
      · rw [hstep, List.map_append]
        apply List.Nodup.append hnd (List.nodup_singleton _)
        intro a ha hb
        rw [List.mem_map] at ha
        obtain ⟨f, hf, rfl⟩ := ha
        rw [List.mem_singleton] at hb
        exact hfresh f hf p (List.mem_cons_self p rest) hb
    · have hstep : addFiller s p.1 p.2 = s := by rw [addFiller, if_neg hc]
      rw [hstep]
      apply ih s (List.Pairwise.of_cons hp)
      · intro f hf q hq
        exact hfresh f hf q (List.mem_cons_of_mem p hq)
      · exact hnd

/-- C10 amended.  Within one session started from the initial state, a
sequence of recipient additions whose `Date.now()` timestamps are
pairwise distinct (in particular, any strictly increasing clock) yields
pairwise distinct recipient ids; with equal timestamps the ids collide,
as the counterexample shows. -/
theorem addFiller_ids_nodup (l : List (String × Nat))
    (hl : List.Pairwise (fun a b => a.2 ≠ b.2) l) :
    ((runAdds initialState l).fillers.map Filler.id).Nodup :=
  runAdds_nodup_aux l initialState hl
    (fun f hf => absurd hf (by simp [initialState]))
    (by simp [initialState])

/-- Witness for the amended C10: two additions at distinct timestamps. -/
theorem addFiller_ids_nodup_witness :
    ((runAdds initialState [("a@x.com", 1), ("b@y.com", 2)]).fillers.map Filler.id).Nodup :=
  addFiller_ids_nodup [("a@x.com", 1), ("b@y.com", 2)] (by decide)

end Esig
